import Mathlib

/-!
# alertpost: endpoint registry and alert dispatch

A shallow embedding of `services/alertpost/service.go` and of the receiving
stub `services/alertpost/alertposttest/server.go`.

* Go maps with string keys are association lists read through `GoMap.get`
  and written through `GoMap.set`.
* A method that mutates its receiver returns the new receiver next to its
  Go result.
* The locks (`sync.RWMutex`) and the loggers are left out: every operation is
  modelled as one sequential step.
* The standard library (`encoding/json`, `net/http`) is a parameter, `Env`.
* A Go pair `(value, err)` is a pair of options, `none` for `nil`.
-/

namespace alertpost

/-! ## Go maps with string keys -/

/-- A Go `map[string]V`: an association list, read by `GoMap.get` and written
by `GoMap.set`, which keeps at most one entry for a key. -/
abbrev GoMap (V : Type) := List (String × V)

/-- The Go expression `v, ok := m[k]`: `some v` when `k` is a key of `m`. -/
def GoMap.get {V : Type} : GoMap V → String → Option V
  | [], _ => none
  | (k', v) :: m, k => if k' = k then some v else GoMap.get m k

/-- The Go statement `m[k] = v`: overwrite the entry of `k`, or add one. -/
def GoMap.set {V : Type} : GoMap V → String → V → GoMap V
  | [], k, v => [(k, v)]
  | (k', v') :: m, k, v => if k' = k then (k, v) :: m else (k', v') :: GoMap.set m k v

/-! ## The registry (`Service`) -/

/-- Modelled from the spec: the endpoint record `Config` is declared in
`config.go`, which is not among the sources. Its three fields are the ones
`Service.Test` fills in (`Endpoint`, `URL`, `Headers`), the last one a
`map[string]string`. -/
structure Config where
  Endpoint : String
  URL : String
  Headers : GoMap String
deriving DecidableEq

/-- The Go zero value of `Config`. -/
instance : Inhabited Config := ⟨⟨"", "", []⟩⟩

/-- An element of the `[]interface{}` handed to `Service.Update`: either a
`Config` value, for which the type assertion `nc.(Config)` succeeds, or a
value of any other dynamic type, of which only the name (what `%T` prints)
is kept. -/
inductive Dyn where
  | config (c : Config)
  | other (typeName : String)
deriving DecidableEq

/-- The type `Service` without its lock and its logger. -/
structure Service where
  endpoints : GoMap Config
deriving DecidableEq

/-- The method `Service.endpoint`: the record under the name `e` and whether
there is one; the zero `Config` when there is none. -/
def Service.endpoint (s : Service) (e : String) : Config × Bool :=
  match GoMap.get s.endpoints e with
  | some c => (c, true)
  | none => (default, false)

/-- The method `Service.Update`: the returned error (`none` for `nil`) and the
service afterwards. Every `Config` met is written into the live table at
once; the first element of another type ends the loop with an error. -/
def Service.Update : Service → List Dyn → Option String × Service
  | s, [] => (none, s)
  | s, Dyn.config c :: rest =>
    Service.Update { s with endpoints := GoMap.set s.endpoints c.Endpoint c } rest
  | s, Dyn.other t :: _ =>
    (some ("unexpected config object type, got " ++ t ++ " exp alertpost.Config"), s)

/-- The `Config` elements of an update that come before its first element of
another type: the ones `Service.Update` reaches. -/
def reached : List Dyn → List Config
  | [] => []
  | Dyn.config c :: rest => c :: reached rest
  | Dyn.other _ :: _ => []

/-- The table that writing the records `cs` one after the other leaves. -/
def installAll (m : GoMap Config) (cs : List Config) : GoMap Config :=
  cs.foldl (fun m c => GoMap.set m c.Endpoint c) m

/-! ## Alert events and payloads -/

/-- Modelled from the spec: `alert.Level` is declared in the package `alert`,
which is not among the sources: the enumerated severity of an alert, whose
zero value is `OK`. -/
inductive Level where
  | OK
  | Info
  | Warning
  | Critical
deriving DecidableEq, Inhabited

/-- A `time.Time`, as nanoseconds from the zero instant `time.Time{}`. -/
structure Time where
  nanos : Int
deriving DecidableEq

/-- The zero instant `time.Time{}`. -/
instance : Inhabited Time := ⟨⟨0⟩⟩

/-- A `time.Duration`: a count of nanoseconds. -/
abbrev Duration := Int

/-- Modelled from the spec: `influxql.Result`, the structured result attached
to an alert, is declared outside the sources and is not looked into by this
package: only its series, each kept as text, and its error text are kept. -/
structure Result where
  Series : List String
  Err : String
deriving DecidableEq

/-- The zero value of `Result`. -/
instance : Inhabited Result := ⟨⟨[], ""⟩⟩

/-- Modelled from the spec: `alert.EventState` is declared in the package
`alert`, which is not among the sources; its fields are the six that
`alertDataFromEvent` reads. -/
structure EventState where
  ID : String
  Message : String
  Details : String
  Time : Time
  Duration : Duration
  Level : Level
deriving DecidableEq

/-- The zero value of `EventState`. -/
instance : Inhabited EventState := ⟨⟨"", "", "", default, 0, default⟩⟩

/-- Modelled from the spec: `alert.EventData` is declared in the package
`alert`, which is not among the sources: the computation output of an event,
of which `alertDataFromEvent` reads `Result` only. -/
structure EventData where
  Name : String
  TaskName : String
  Group : String
  Tags : GoMap String
  Result : Result
deriving DecidableEq

/-- The zero value of `EventData`. -/
instance : Inhabited EventData := ⟨⟨"", "", "", [], default⟩⟩

/-- Modelled from the spec: `alert.Event` is declared in the package `alert`,
which is not among the sources: a topic, the alert state and the data. -/
structure Event where
  Topic : String
  State : EventState
  Data : EventData
deriving DecidableEq

/-- The zero value `alert.Event{}`. -/
instance : Inhabited Event := ⟨⟨"", default, default⟩⟩

/-- Modelled from the spec: `alert.AlertData` is declared in the package
`alert`, which is not among the sources; its fields are the seven that
`alertDataFromEvent` fills in. -/
structure AlertData where
  ID : String
  Message : String
  Details : String
  Time : Time
  Duration : Duration
  Level : Level
  Data : Result
deriving DecidableEq

/-- The zero value `alert.AlertData{}`. -/
instance : Inhabited AlertData := ⟨⟨"", "", "", default, 0, default, default⟩⟩

/-- The function `alertDataFromEvent`. -/
def alertDataFromEvent (event : Event) : AlertData :=
  { ID := event.State.ID
    Message := event.State.Message
    Details := event.State.Details
    Time := event.State.Time
    Duration := event.State.Duration
    Level := event.State.Level
    Data := event.Data.Result }

/-! ## HTTP requests and the standard library -/

/-- The bytes of a request body. -/
abbrev Body := String

/-- An `http.Header`: a map from canonical header names to the values set. -/
abbrev Header := GoMap (List String)

/-- The standard library and the network, which the package only calls. -/
structure Env where
  /-- The call `json.NewEncoder(body).Encode(ad)` on an empty buffer: the
  bytes written, or the error. -/
  jsonEncode : AlertData → Except String Body
  /-- Whether `http.NewRequest` accepts a URL (it parses). -/
  urlOK : String → Bool
  /-- The function `textproto.CanonicalMIMEHeaderKey`, which `Header.Set`,
  `Add` and `Get` apply to the key. -/
  canonicalKey : String → String
  /-- The call `http.DefaultClient.Do(req)`: `none` for a round trip that
  succeeded, whatever its status code, or the transport error. -/
  clientDo : (method url : String) → Header → Body → Option String
  /-- The call `json.NewDecoder(r.Body).Decode(&data)` on a zero `AlertData`:
  what the payload holds afterwards. -/
  jsonDecode : Body → AlertData

/-- The method `http.Header.Set`: the values of the canonical key become `[v]`. -/
def Header.Set (env : Env) (h : Header) (k v : String) : Header :=
  GoMap.set h (env.canonicalKey k) [v]

/-- The method `http.Header.Add`: `v` is appended to the values of the canonical key. -/
def Header.Add (env : Env) (h : Header) (k v : String) : Header :=
  GoMap.set h (env.canonicalKey k) ((GoMap.get h (env.canonicalKey k)).getD [] ++ [v])

/-- The method `http.Header.Get`: the first value of the canonical key, `""` without one. -/
def Header.Get (env : Env) (h : Header) (k : String) : String :=
  match GoMap.get h (env.canonicalKey k) with
  | some (v :: _) => v
  | _ => ""

/-- An `http.Request`, as far as the package sets or reads it. -/
structure HttpRequest where
  Method : String
  URL : String
  Header : Header
  Body : Body
deriving DecidableEq

/-- The function `http.NewRequest(method, url, body)`: the Go pair `(req, err)`, a request
with no header and no error, or no request and an error. -/
def httpNewRequest (env : Env) (method url : String) (body : Body) :
    Option HttpRequest × Option String :=
  if env.urlOK url then (some ⟨method, url, [], body⟩, none)
  else (none, some ("parse " ++ url))

/-- Modelled from the spec: the method `Config.NewRequest` is defined in
`config.go`, which is not among the sources: an HTTP POST request against the
record's URL with the payload as the body, to which every static header of
the record is applied (here in the order of the list; Go fixes none); the
error of `http.NewRequest`, with no request, when the URL is refused. -/
def Config.NewRequest (env : Env) (c : Config) (body : Body) :
    Option HttpRequest × Option String :=
  match httpNewRequest env "POST" c.URL body with
  | (some req, none) =>
    (some { req with
        Header := c.Headers.foldl (fun h kv => Header.Add env h kv.1 kv.2) req.Header }, none)
  | r => r

/-! ## The dispatcher (`handler`) -/

/-- The type `HandlerConfig`. -/
structure HandlerConfig where
  URL : String
  Endpoint : String
deriving DecidableEq

/-- The type `handler` without its buffer pool and its logger; the service it
points to is passed to `handler.Handle`. -/
structure handler where
  url : String
  endpoint : String
deriving DecidableEq

/-- The method `Service.Handler`. -/
def Service.Handler (_s : Service) (c : HandlerConfig) : handler :=
  { url := c.URL, endpoint := c.Endpoint }

/-- How a call of `handler.Handle` ends. -/
inductive Outcome where
  /-- Logged "failed to marshal alert data json" and returned. -/
  | marshalFailed (err : String)
  /-- Logged "failed to create POST request" and returned. -/
  | createFailed (err : String)
  /-- Logged "endpoint does not exist" and returned. -/
  | endpointMissing (name : String)
  /-- Did not return: `req.Header.Set` on a nil `req` is a nil pointer
  dereference, a run-time panic. -/
  | nilDereference
  /-- Executed `req`, logged "failed to POST alert data" and returned. -/
  | postFailed (req : HttpRequest) (err : String)
  /-- Executed `req`, closed the response body and returned. -/
  | posted (req : HttpRequest)
deriving DecidableEq

/-- The requests a call handed to `http.DefaultClient.Do`. -/
def Outcome.executed : Outcome → List HttpRequest
  | Outcome.postFailed req _ => [req]
  | Outcome.posted req => [req]
  | _ => []

/-- Whether the call returned to its caller (it did not panic). -/
def Outcome.returned : Outcome → Bool
  | Outcome.nilDereference => false
  | _ => true

/-- The last part of `handler.Handle`, under "Execute the request", on the
Go variable `req`: the pointer is dereferenced to set the content type,
then the request is executed. -/
def handler.execute (env : Env) : Option HttpRequest → Outcome
  | none => Outcome.nilDereference
  | some req =>
    let req := { req with Header := Header.Set env req.Header "Content-Type" "application/json" }
    match env.clientDo req.Method req.URL req.Header req.Body with
    | some err => Outcome.postFailed req err
    | none => Outcome.posted req

/-- The method `handler.Handle` on the service `s` the handler points to: how
the call ends, and the service afterwards. -/
def handler.Handle (env : Env) (h : handler) (s : Service) (event : Event) :
    Outcome × Service :=
  let ad := alertDataFromEvent event
  match env.jsonEncode ad with
  | Except.error err => (Outcome.marshalFailed err, s)
  | Except.ok body =>
    if h.url ≠ "" then
      match httpNewRequest env "POST" h.url body with
      | (_, some err) => (Outcome.createFailed err, s)
      | (req, none) => (handler.execute env req, s)
    else
      match s.endpoint h.endpoint with
      | (_, false) => (Outcome.endpointMissing h.endpoint, s)
      | (c, true) => (handler.execute env (Config.NewRequest env c body).1, s)

end alertpost

/-! ## The receiving stub (`alertposttest`) -/

namespace alertposttest

open alertpost

/-- The type `Request`: one entry of the log. -/
structure Request where
  MatchingHeaders : Bool
  Data : AlertData
deriving DecidableEq

/-- The type `Server`. Of the `httptest.Server` in `ts` only the map
`headers` is kept, which the handler that `NewServer` installs in it has
captured. -/
structure Server where
  headers : GoMap String
  URL : String
  data : List Request
  closed : Bool
deriving DecidableEq

/-- The function `NewServer`: a server with an empty log, open, at the address
`url` that `httptest.NewServer` has picked. -/
def NewServer (url : String) (headers : GoMap String) : Server :=
  { headers := headers, URL := url, data := [], closed := false }

/-- The loop of the handler over the expected headers: the flag is cleared at
every pair whose value differs from the one the request carries. -/
def matchHeaders (env : Env) (r : HttpRequest) : GoMap String → Bool → Bool
  | [], matching => matching
  | (k, v) :: rest, matching =>
    matchHeaders env r rest (if Header.Get env r.Header k ≠ v then false else matching)

/-- The entry that the handler installed by `NewServer(headers)` builds for
the request `r`: the flag starts at `true`, the payload is decoded into a zero
`AlertData`. -/
def entry (env : Env) (headers : GoMap String) (r : HttpRequest) : Request :=
  { MatchingHeaders := matchHeaders env r headers true
    Data := env.jsonDecode r.Body }

/-- The handler installed by `NewServer`, on the request `r`: the server
afterwards, with the entry appended to its log. -/
def Server.serve (env : Env) (s : Server) (r : HttpRequest) : Server :=
  { s with data := s.data ++ [entry env s.headers r] }

/-- The method `Server.Data`. -/
def Server.Data (s : Server) : List Request :=
  s.data

/-- The method `Server.Close`. -/
def Server.Close (s : Server) : Server :=
  if s.closed then s else { s with closed := true }

end alertposttest

namespace alertpost

/-! ## Concrete values, for the examples -/

/-- A stand-in for the standard library on the examples: a payload is encoded
as its `ID`, a URL is accepted when it starts with `http`, header keys are
canonical as written, and every round trip succeeds. -/
def exampleEnv : Env where
  jsonEncode := fun ad => Except.ok ad.ID
  urlOK := fun u =>
    match u.data with
    | 'h' :: 't' :: 't' :: 'p' :: _ => true
    | _ => false
  canonicalKey := fun k => k
  clientDo := fun _ _ _ _ => none
  jsonDecode := fun b => { (default : AlertData) with ID := b }

/-- The endpoint `ops`, as first configured. -/
def opsV1 : Config := ⟨"ops", "http://ops.example/v1", [("Auth", "secret")]⟩

/-- The endpoint `ops`, reconfigured. -/
def opsV2 : Config := ⟨"ops", "http://ops.example/v2", [("Auth", "rotated")]⟩

/-- The endpoint `db`. -/
def dbRecord : Config := ⟨"db", "http://db.example/", []⟩

/-- An endpoint `ops` whose URL `http.NewRequest` refuses (it has no scheme). -/
def opsNoScheme : Config := ⟨"ops", ":", [("Auth", "secret")]⟩

/-- An event at level `Warning`. -/
def warningEvent : Event :=
  { Topic := "main"
    State := ⟨"a1", "m", "d", ⟨1⟩, 5, Level.Warning⟩
    Data := ⟨"cpu", "task", "host=a", [("host", "a")], ⟨["x=1"], ""⟩⟩ }

/-! ## Lemmas on maps and on `Update` -/

theorem GoMap.get_set {V : Type} (m : GoMap V) (k k' : String) (v : V) :
    GoMap.get (GoMap.set m k v) k' = if k = k' then some v else GoMap.get m k' := by
  induction m with
  | nil => simp [GoMap.set, GoMap.get]
  | cons p m ih =>
    obtain ⟨a, b⟩ := p
    by_cases hak : a = k
    · subst hak
      by_cases hak' : a = k' <;> simp [GoMap.set, GoMap.get, hak']
    · by_cases hak' : a = k'
      · subst hak'
        simp [GoMap.set, GoMap.get, hak, Ne.symm hak]
      · simp [GoMap.set, GoMap.get, hak, hak', ih]

theorem installAll_get_of_not_mem (cs : List Config) (m : GoMap Config) (n : String)
    (hn : n ∉ cs.map Config.Endpoint) :
    GoMap.get (installAll m cs) n = GoMap.get m n := by
  induction cs generalizing m with
  | nil => rfl
  | cons c cs ih =>
    simp only [List.map_cons, List.mem_cons, not_or] at hn
    show GoMap.get (installAll (GoMap.set m c.Endpoint c) cs) n = _
    rw [ih _ hn.2, GoMap.get_set, if_neg (Ne.symm hn.1)]

theorem installAll_get_last (l₁ l₂ : List Config) (c : Config) (m : GoMap Config)
    (hc : c.Endpoint ∉ l₂.map Config.Endpoint) :
    GoMap.get (installAll m (l₁ ++ c :: l₂)) c.Endpoint = some c := by
  unfold installAll
  rw [List.foldl_append, List.foldl_cons]
  have := installAll_get_of_not_mem l₂
    (GoMap.set (List.foldl (fun m c => GoMap.set m c.Endpoint c) m l₁) c.Endpoint c) c.Endpoint hc
  unfold installAll at this
  rw [this, GoMap.get_set, if_pos rfl]

theorem installAll_get_isSome (cs : List Config) (m : GoMap Config) (n : String) :
    (GoMap.get (installAll m cs) n).isSome = true ↔
      (GoMap.get m n).isSome = true ∨ n ∈ cs.map Config.Endpoint := by
  induction cs generalizing m with
  | nil => simp [installAll]
  | cons c cs ih =>
    show (GoMap.get (installAll (GoMap.set m c.Endpoint c) cs) n).isSome = true ↔ _
    rw [ih, GoMap.get_set]
    by_cases h : c.Endpoint = n
    · simp [h]
    · simp [h, Ne.symm h]

theorem Update_endpoints (objs : List Dyn) (s : Service) :
    (Service.Update s objs).2.endpoints = installAll s.endpoints (reached objs) := by
  induction objs generalizing s with
  | nil => rfl
  | cons x objs ih =>
    cases x with
    | config c => simp only [Service.Update, reached, ih]; rfl
    | other t => rfl

theorem Update_error_iff (objs : List Dyn) (s : Service) :
    (Service.Update s objs).1 ≠ none ↔ ∃ x ∈ objs, ∀ c, x ≠ Dyn.config c := by
  induction objs generalizing s with
  | nil => simp [Service.Update]
  | cons x objs ih =>
    cases x with
    | config c =>
      simp only [Service.Update, ih, List.mem_cons, exists_eq_or_imp]
      constructor
      · intro h; exact Or.inr h
      · rintro (h | h)
        · exact absurd rfl (h c)
        · exact h
    | other t =>
      simp only [Service.Update, ne_eq, reduceCtorEq, not_false_eq_true, true_iff]
      exact ⟨Dyn.other t, List.mem_cons_self _ _, fun c => by simp⟩

theorem reached_map_config (cs : List Config) : reached (cs.map Dyn.config) = cs := by
  induction cs with
  | nil => rfl
  | cons c cs ih => simp [reached, ih]

theorem Update_configs_ok (cs : List Config) (s : Service) :
    (Service.Update s (cs.map Dyn.config)).1 = none := by
  by_contra h
  obtain ⟨x, hx, hne⟩ := (Update_error_iff _ s).1 h
  obtain ⟨c, _, rfl⟩ := List.mem_map.1 hx
  exact hne c rfl

theorem endpoint_eq_of_get_eq (s t : Service) (n : String)
    (h : GoMap.get s.endpoints n = GoMap.get t.endpoints n) :
    s.endpoint n = t.endpoint n := by
  simp [Service.endpoint, h]

/-! ## The registry: `Update` and `endpoint` -/

/-- C1, as stated, fails: on the empty table, an update made of the record
`ops` followed by a string returns an error, and yet `endpoint("ops")`, which
found nothing before the call, then returns the record. -/
theorem Update_error_keeps_earlier_writes :
    (Service.Update ⟨[]⟩ [Dyn.config opsV1, Dyn.other "string"]).1 ≠ none ∧
      (Service.endpoint ⟨[]⟩ "ops") = (default, false) ∧
      (Service.Update ⟨[]⟩ [Dyn.config opsV1, Dyn.other "string"]).2.endpoint "ops"
        = (opsV1, true) := by
  refine ⟨?_, rfl, ?_⟩
  · simp [Service.Update]
  · simp [Service.Update, Service.endpoint, GoMap.set, GoMap.get, opsV1]

/-- C1, amended: when some element of the update is not a `Config`, `Update`
returns an error, and `endpoint(n)` returns the same pair as before the call
for every name `n` that is not the `Endpoint` of a `Config` element placed
before the first element of another type; when no `Config` element comes
before it, the service is exactly as before the call. -/
theorem Update_error_keeps_unreached_names (s : Service) (objs : List Dyn)
    (hbad : ∃ x ∈ objs, ∀ c, x ≠ Dyn.config c) :
    (Service.Update s objs).1 ≠ none ∧
      (∀ n, n ∉ (reached objs).map Config.Endpoint →
        (Service.Update s objs).2.endpoint n = s.endpoint n) ∧
      (reached objs = [] → (Service.Update s objs).2 = s) := by
  refine ⟨(Update_error_iff objs s).2 hbad, ?_, ?_⟩
  · intro n hn
    apply endpoint_eq_of_get_eq
    rw [Update_endpoints]
    exact installAll_get_of_not_mem _ _ _ hn
  · intro hr
    have h := Update_endpoints objs s
    rw [hr] at h
    cases hs : (Service.Update s objs).2
    cases s
    rw [hs] at h
    simpa [installAll] using h

/-- Witness of C1, amended: the update `[ops, "string", db]` on a table that
holds `db`, and the update `["string", ops]` on the same table. -/
theorem Update_error_keeps_unreached_names_witness :
    (∃ x ∈ [Dyn.config opsV1, Dyn.other "string", Dyn.config dbRecord],
        ∀ c, x ≠ Dyn.config c) ∧
      (Service.Update ⟨[("db", dbRecord)]⟩
          [Dyn.config opsV1, Dyn.other "string", Dyn.config dbRecord]).2.endpoint "db"
        = Service.endpoint ⟨[("db", dbRecord)]⟩ "db" ∧
      (Service.Update ⟨[("db", dbRecord)]⟩ [Dyn.other "string", Dyn.config opsV1]).2
        = ⟨[("db", dbRecord)]⟩ :=
  have hbad : ∃ x ∈ [Dyn.config opsV1, Dyn.other "string", Dyn.config dbRecord],
      ∀ c, x ≠ Dyn.config c := ⟨Dyn.other "string", by simp, by simp⟩
  have hbad₂ : ∃ x ∈ [Dyn.other "string", Dyn.config opsV1],
      ∀ c, x ≠ Dyn.config c := ⟨Dyn.other "string", by simp, by simp⟩
  ⟨hbad, (Update_error_keeps_unreached_names _ _ hbad).2.1 "db" (by simp [reached, opsV1]),
    (Update_error_keeps_unreached_names ⟨[("db", dbRecord)]⟩ _ hbad₂).2.2 rfl⟩

/-- C2, as stated, fails: on the table that holds `db`, the update `[ops]`
succeeds, `db` is not a name of the update, and `endpoint("db")` still returns
the old record with `found = true`. -/
theorem Update_keeps_absent_names :
    (Service.Update ⟨[("db", dbRecord)]⟩ [Dyn.config opsV1]).1 = none ∧
      "db" ∉ [opsV1].map Config.Endpoint ∧
      (Service.endpoint ⟨[("db", dbRecord)]⟩ "db").2 = true ∧
      (Service.Update ⟨[("db", dbRecord)]⟩ [Dyn.config opsV1]).2.endpoint "db"
        = (dbRecord, true) := by
  refine ⟨rfl, ?_, ?_, ?_⟩
  · simp [opsV1]
  · simp [Service.endpoint, GoMap.get]
  · simp [Service.Update, Service.endpoint, GoMap.set, GoMap.get, opsV1]

/-- C2, amended: an update made of `Config` values only succeeds and is merged
into the previous table: `endpoint(n)` is as before the call for every name
`n` that is not the `Endpoint` of an element, so the names found afterwards
are those found before together with those of the update. -/
theorem Update_merges_into_table (s : Service) (cs : List Config) :
    (Service.Update s (cs.map Dyn.config)).1 = none ∧
      (∀ n, n ∉ cs.map Config.Endpoint →
        (Service.Update s (cs.map Dyn.config)).2.endpoint n = s.endpoint n) ∧
      (∀ n, ((Service.Update s (cs.map Dyn.config)).2.endpoint n).2 = true ↔
        (s.endpoint n).2 = true ∨ n ∈ cs.map Config.Endpoint) := by
  refine ⟨Update_configs_ok cs s, ?_, ?_⟩
  · intro n hn
    apply endpoint_eq_of_get_eq
    rw [Update_endpoints, reached_map_config]
    exact installAll_get_of_not_mem _ _ _ hn
  · intro n
    have h := installAll_get_isSome cs s.endpoints n
    rw [← reached_map_config cs, ← Update_endpoints] at h
    rw [reached_map_config] at h
    simp only [Service.endpoint]
    cases h₁ : GoMap.get (Service.Update s (cs.map Dyn.config)).2.endpoints n <;>
      cases h₂ : GoMap.get s.endpoints n <;> simp [h₁, h₂] at h ⊢ <;> exact h

/-- C3: an update made of `Config` values with pairwise distinct `Endpoint`
names returns `nil`, and afterwards `endpoint(c.Endpoint)` returns `(c, true)`
for every element `c` of it. -/
theorem Update_then_endpoint (s : Service) (cs : List Config)
    (hdistinct : (cs.map Config.Endpoint).Nodup) :
    (Service.Update s (cs.map Dyn.config)).1 = none ∧
      ∀ c ∈ cs, (Service.Update s (cs.map Dyn.config)).2.endpoint c.Endpoint = (c, true) := by
  refine ⟨Update_configs_ok cs s, ?_⟩
  intro c hc
  obtain ⟨l₁, l₂, rfl⟩ := List.append_of_mem hc
  have hnot : c.Endpoint ∉ l₂.map Config.Endpoint := by
    rw [List.map_append, List.map_cons] at hdistinct
    exact (List.nodup_cons.1 (List.nodup_append.1 hdistinct).2.1).1
  simp only [Service.endpoint, Update_endpoints, reached_map_config,
    installAll_get_last l₁ l₂ c _ hnot]

/-- Witness of C3: the update `[ops, db]` on a table that
holds another record under `ops`. -/
theorem Update_then_endpoint_witness :
    ([opsV1, dbRecord].map Config.Endpoint).Nodup ∧
      (Service.Update ⟨[("ops", opsV2)]⟩ ([opsV1, dbRecord].map Dyn.config)).1 = none ∧
      ∀ c ∈ [opsV1, dbRecord],
        (Service.Update ⟨[("ops", opsV2)]⟩ ([opsV1, dbRecord].map Dyn.config)).2.endpoint
          c.Endpoint = (c, true) :=
  have hd : ([opsV1, dbRecord].map Config.Endpoint).Nodup := by simp [opsV1, dbRecord]
  ⟨hd, Update_then_endpoint ⟨[("ops", opsV2)]⟩ [opsV1, dbRecord] hd⟩

/-- C4: `Update` returns a non-nil error exactly when some element of the
update is not a `Config`; it returns `nil` for the empty update and for every
update made of `Config` values only. -/
theorem Update_error_iff_type_mismatch (s : Service) (objs : List Dyn) :
    ((Service.Update s objs).1 ≠ none ↔ ∃ x ∈ objs, ∀ c, x ≠ Dyn.config c) ∧
      (Service.Update s []).1 = none ∧
      ∀ cs : List Config, (Service.Update s (cs.map Dyn.config)).1 = none :=
  ⟨Update_error_iff objs s, rfl, fun cs => Update_configs_ok cs s⟩

/-! ## Lemmas on `Handle`, one for each way through it -/

theorem Handle_marshal_error (env : Env) (h : handler) (s : Service) (e : Event) (err : String)
    (henc : env.jsonEncode (alertDataFromEvent e) = Except.error err) :
    handler.Handle env h s e = (Outcome.marshalFailed err, s) := by
  simp only [handler.Handle, henc]

theorem Handle_url_refused (env : Env) (h : handler) (s : Service) (e : Event) (body : Body)
    (henc : env.jsonEncode (alertDataFromEvent e) = Except.ok body)
    (hurl : h.url ≠ "") (hu : env.urlOK h.url = false) :
    handler.Handle env h s e = (Outcome.createFailed ("parse " ++ h.url), s) := by
  simp [handler.Handle, henc, hurl, httpNewRequest, hu]

theorem Handle_url_accepted (env : Env) (h : handler) (s : Service) (e : Event) (body : Body)
    (henc : env.jsonEncode (alertDataFromEvent e) = Except.ok body)
    (hurl : h.url ≠ "") (hu : env.urlOK h.url = true) :
    handler.Handle env h s e
      = (handler.execute env (some ⟨"POST", h.url, [], body⟩), s) := by
  simp [handler.Handle, henc, hurl, httpNewRequest, hu]

theorem Handle_endpoint_missing (env : Env) (h : handler) (s : Service) (e : Event) (body : Body)
    (henc : env.jsonEncode (alertDataFromEvent e) = Except.ok body)
    (hurl : h.url = "") (hmiss : GoMap.get s.endpoints h.endpoint = none) :
    handler.Handle env h s e = (Outcome.endpointMissing h.endpoint, s) := by
  simp [handler.Handle, henc, hurl, Service.endpoint, hmiss]

theorem Handle_endpoint_found (env : Env) (h : handler) (s : Service) (e : Event) (body : Body)
    (c : Config) (henc : env.jsonEncode (alertDataFromEvent e) = Except.ok body)
    (hurl : h.url = "") (hfound : GoMap.get s.endpoints h.endpoint = some c) :
    handler.Handle env h s e = (handler.execute env (Config.NewRequest env c body).1, s) := by
  simp [handler.Handle, henc, hurl, Service.endpoint, hfound]

theorem execute_some (env : Env) (req : HttpRequest) :
    (handler.execute env (some req)).executed
      = [{ req with Header := Header.Set env req.Header "Content-Type" "application/json" }] := by
  simp only [handler.execute]
  split <;> rfl

theorem NewRequest_refused (env : Env) (c : Config) (body : Body)
    (hu : env.urlOK c.URL = false) :
    Config.NewRequest env c body = (none, some ("parse " ++ c.URL)) := by
  simp [Config.NewRequest, httpNewRequest, hu]

/-- C5: for a handler with a non-empty `url`, whatever endpoint name it is
bound to, `Handle` ends the same way on every two registry tables; every
request it executes is a POST to the handler's `url` whose only header is
`Content-Type: application/json`, and it executes exactly that request when
the payload serializes and the URL is accepted. -/
theorem Handle_url_ignores_registry (env : Env) (h : handler) (n : String)
    (s₁ s₂ : Service) (e : Event) (hurl : h.url ≠ "") :
    (handler.Handle env h s₁ e).1 = (handler.Handle env { h with endpoint := n } s₂ e).1 ∧
      (∀ req ∈ (handler.Handle env h s₁ e).1.executed,
        req.Method = "POST" ∧ req.URL = h.url ∧
          req.Header = [(env.canonicalKey "Content-Type", ["application/json"])]) ∧
      (∀ body, env.jsonEncode (alertDataFromEvent e) = Except.ok body →
        env.urlOK h.url = true →
        (handler.Handle env h s₁ e).1.executed =
          [⟨"POST", h.url, [(env.canonicalKey "Content-Type", ["application/json"])], body⟩]) := by
  have hacc : ∀ body, env.jsonEncode (alertDataFromEvent e) = Except.ok body →
      env.urlOK h.url = true →
      (handler.Handle env h s₁ e).1.executed =
        [⟨"POST", h.url, [(env.canonicalKey "Content-Type", ["application/json"])], body⟩] := by
    intro body henc hu
    rw [Handle_url_accepted env h s₁ e body henc hurl hu, execute_some]
    rfl
  refine ⟨?_, ?_, hacc⟩
  · cases henc : env.jsonEncode (alertDataFromEvent e) with
    | error err =>
      rw [Handle_marshal_error env h s₁ e err henc, Handle_marshal_error env _ s₂ e err henc]
    | ok body =>
      cases hu : env.urlOK h.url with
      | false =>
        rw [Handle_url_refused env h s₁ e body henc hurl hu,
          Handle_url_refused env { h with endpoint := n } s₂ e body henc hurl hu]
      | true =>
        rw [Handle_url_accepted env h s₁ e body henc hurl hu,
          Handle_url_accepted env { h with endpoint := n } s₂ e body henc hurl hu]
  · intro req hreq
    cases henc : env.jsonEncode (alertDataFromEvent e) with
    | error err =>
      rw [Handle_marshal_error env h s₁ e err henc] at hreq
      simp [Outcome.executed] at hreq
    | ok body =>
      cases hu : env.urlOK h.url with
      | false =>
        rw [Handle_url_refused env h s₁ e body henc hurl hu] at hreq
        simp [Outcome.executed] at hreq
      | true =>
        rw [hacc body henc hu, List.mem_singleton] at hreq
        subst hreq
        exact ⟨rfl, rfl, rfl⟩

/-- Witness of C5: a handler bound to a URL and to
the name `ops`, on the empty table and on a table that holds `ops`. -/
theorem Handle_url_ignores_registry_witness :
    (⟨"http://fixed.example/", "ops"⟩ : handler).url ≠ "" ∧
      (handler.Handle exampleEnv ⟨"http://fixed.example/", "ops"⟩ ⟨[]⟩ warningEvent).1
        = (handler.Handle exampleEnv ⟨"http://fixed.example/", "db"⟩
            ⟨[("ops", opsV1)]⟩ warningEvent).1 ∧
      (handler.Handle exampleEnv ⟨"http://fixed.example/", "ops"⟩ ⟨[]⟩ warningEvent).1.executed
        = [⟨"POST", "http://fixed.example/", [("Content-Type", ["application/json"])], "a1"⟩] :=
  have hurl : (⟨"http://fixed.example/", "ops"⟩ : handler).url ≠ "" := by decide
  have h := Handle_url_ignores_registry exampleEnv ⟨"http://fixed.example/", "ops"⟩ "db"
    ⟨[]⟩ ⟨[("ops", opsV1)]⟩ warningEvent hurl
  ⟨hurl, h.1, h.2.2 "a1" rfl rfl⟩

/-- C6: for a handler with an empty `url` bound to a name that is not a key of
the registry table, `Handle` returns without executing any request and leaves
the registry as it was; when the payload serializes it ends at the report
that the endpoint does not exist. -/
theorem Handle_unknown_endpoint (env : Env) (h : handler) (s : Service) (e : Event)
    (hurl : h.url = "") (hmiss : (s.endpoint h.endpoint).2 = false) :
    (handler.Handle env h s e).1.executed = [] ∧
      (handler.Handle env h s e).1.returned = true ∧
      (handler.Handle env h s e).2 = s ∧
      (∀ body, env.jsonEncode (alertDataFromEvent e) = Except.ok body →
        (handler.Handle env h s e).1 = Outcome.endpointMissing h.endpoint) := by
  have hget : GoMap.get s.endpoints h.endpoint = none := by
    cases hg : GoMap.get s.endpoints h.endpoint with
    | none => rfl
    | some c => simp [Service.endpoint, hg] at hmiss
  cases henc : env.jsonEncode (alertDataFromEvent e) with
  | error err =>
    rw [Handle_marshal_error env h s e err henc]
    exact ⟨rfl, rfl, rfl, fun body hb => by cases hb⟩
  | ok body =>
    rw [Handle_endpoint_missing env h s e body henc hurl hget]
    exact ⟨rfl, rfl, rfl, fun _ _ => rfl⟩

/-- Witness of C6: a handler bound to the name `ops` on
a table that holds `db` only. -/
theorem Handle_unknown_endpoint_witness :
    (⟨"", "ops"⟩ : handler).url = "" ∧
      (Service.endpoint ⟨[("db", dbRecord)]⟩ "ops").2 = false ∧
      (handler.Handle exampleEnv ⟨"", "ops"⟩ ⟨[("db", dbRecord)]⟩ warningEvent).1
        = Outcome.endpointMissing "ops" ∧
      (handler.Handle exampleEnv ⟨"", "ops"⟩ ⟨[("db", dbRecord)]⟩ warningEvent).1.executed = [] :=
  have hmiss : (Service.endpoint ⟨[("db", dbRecord)]⟩ (⟨"", "ops"⟩ : handler).endpoint).2
      = false := by
    simp [Service.endpoint, GoMap.get]
  have h := Handle_unknown_endpoint exampleEnv ⟨"", "ops"⟩ ⟨[("db", dbRecord)]⟩ warningEvent
    rfl hmiss
  ⟨rfl, hmiss, h.2.2.2 "a1" rfl, h.1⟩

/-- C7, at the failing input: a handler with an empty `url` bound to `ops`,
whose record has the URL `:`. `Config.NewRequest` returns an error and no
request, and `Handle` does not return: it dereferences the nil request. A
handler bound to the same URL directly reports the failure and returns. -/
theorem Handle_endpoint_request_error_panics :
    Config.NewRequest exampleEnv opsNoScheme "a1" = (none, some "parse :") ∧
      (handler.Handle exampleEnv ⟨"", "ops"⟩ ⟨[("ops", opsNoScheme)]⟩ warningEvent).1
        = Outcome.nilDereference ∧
      (handler.Handle exampleEnv ⟨"", "ops"⟩ ⟨[("ops", opsNoScheme)]⟩ warningEvent).1.returned
        = false ∧
      (handler.Handle exampleEnv ⟨":", "ops"⟩ ⟨[("ops", opsNoScheme)]⟩ warningEvent).1
        = Outcome.createFailed "parse :" := by
  have hnr : Config.NewRequest exampleEnv opsNoScheme "a1" = (none, some "parse :") :=
    NewRequest_refused exampleEnv opsNoScheme "a1" rfl
  have hh : handler.Handle exampleEnv ⟨"", "ops"⟩ ⟨[("ops", opsNoScheme)]⟩ warningEvent
      = (Outcome.nilDereference, ⟨[("ops", opsNoScheme)]⟩) := by
    rw [Handle_endpoint_found exampleEnv ⟨"", "ops"⟩ ⟨[("ops", opsNoScheme)]⟩ warningEvent "a1"
      opsNoScheme rfl rfl (by simp [GoMap.get]), hnr]
    rfl
  refine ⟨hnr, ?_, ?_, ?_⟩
  · rw [hh]
  · rw [hh]; rfl
  · rw [Handle_url_refused exampleEnv ⟨":", "ops"⟩ _ warningEvent "a1" rfl (by decide) rfl]
    rfl

/-- C9: the payload of an event copies `ID`, `Message`, `Details`, `Time`,
`Duration` and `Level` from the state of the event and `Data` from the result
of its data; two events that agree on these seven fields have equal payloads;
every field of the payload of the zero event is its zero value. -/
theorem alertDataFromEvent_copies (e : Event) :
    ((alertDataFromEvent e).ID = e.State.ID ∧
        (alertDataFromEvent e).Message = e.State.Message ∧
        (alertDataFromEvent e).Details = e.State.Details ∧
        (alertDataFromEvent e).Time = e.State.Time ∧
        (alertDataFromEvent e).Duration = e.State.Duration ∧
        (alertDataFromEvent e).Level = e.State.Level ∧
        (alertDataFromEvent e).Data = e.Data.Result) ∧
      (∀ e₂ : Event, e₂.State.ID = e.State.ID → e₂.State.Message = e.State.Message →
        e₂.State.Details = e.State.Details → e₂.State.Time = e.State.Time →
        e₂.State.Duration = e.State.Duration → e₂.State.Level = e.State.Level →
        e₂.Data.Result = e.Data.Result → alertDataFromEvent e₂ = alertDataFromEvent e) ∧
      alertDataFromEvent default = ⟨"", "", "", ⟨0⟩, 0, Level.OK, ⟨[], ""⟩⟩ := by
  refine ⟨⟨rfl, rfl, rfl, rfl, rfl, rfl, rfl⟩, ?_, rfl⟩
  intro e₂ a b c d f g i
  simp only [alertDataFromEvent, a, b, c, d, f, g, i]

end alertpost

/-! ## The receiving stub -/

namespace alertposttest

open alertpost

theorem matchHeaders_eq_true (env : Env) (r : HttpRequest) (H : GoMap String) (b : Bool) :
    matchHeaders env r H b = true ↔
      b = true ∧ ∀ kv ∈ H, Header.Get env r.Header kv.1 = kv.2 := by
  induction H generalizing b with
  | nil => simp [matchHeaders]
  | cons kv H ih =>
    obtain ⟨k, v⟩ := kv
    simp only [matchHeaders, ih, List.mem_cons, forall_eq_or_imp]
    by_cases hkv : Header.Get env r.Header k = v
    · simp [hkv]
    · simp [hkv]

/-- C10: on every request the handler installed by `NewServer(H)` appends one
entry to the end of the log, leaving the earlier entries as they were; the
entry has `MatchingHeaders = true` exactly when, for every pair `(k, v)` of
`H`, the value the request carries for `k` is `v` (so always for an empty
`H`); with `H = {Auth: secret}` and a request that carries no `Auth` header
the entry has `MatchingHeaders = false`. -/
theorem serve_appends_header_match (env : Env) (H : GoMap String) (url : String)
    (s : Server) (r : HttpRequest) :
    ((NewServer url H).headers = H ∧ (NewServer url H).Data = []) ∧
      ((s.serve env r).Data = s.Data ++ [entry env s.headers r] ∧
        (s.serve env r).headers = s.headers) ∧
      ((entry env H r).MatchingHeaders = true ↔
        ∀ kv ∈ H, Header.Get env r.Header kv.1 = kv.2) ∧
      (entry env [] r).MatchingHeaders = true ∧
      (GoMap.get r.Header (env.canonicalKey "Auth") = none →
        (entry env [("Auth", "secret")] r).MatchingHeaders = false) := by
  refine ⟨⟨rfl, rfl⟩, ⟨rfl, rfl⟩, ?_, rfl, ?_⟩
  · simp [entry, matchHeaders_eq_true]
  · intro hnone
    have h := matchHeaders_eq_true env r [("Auth", "secret")] true
    cases hm : (entry env [("Auth", "secret")] r).MatchingHeaders with
    | false => rfl
    | true =>
      have h2 := (h.1 hm).2 ("Auth", "secret") (List.mem_singleton.2 rfl)
      simp [Header.Get, hnone] at h2

end alertposttest
